import Mathlib

/-!
Verification development for the `filewatch` single-header file watcher
(`src/include/filewatch.hpp`).  The C++ source is shallowly embedded:
strings become `List Char`, the platform notification records become
explicit structures, the monitoring parse loops become recursive
functions, and the queue/dispatch machinery becomes explicit state
passing.  All definitions are translated from the source; line numbers
in doc comments refer to `src/include/filewatch.hpp`.
-/

namespace Filewatch

/-- The `filewatch::Event` enum (lines 41-47). -/
inductive Event
  | CREATED
  | DELETED
  | CHANGED
  | RENAMED_OLD
  | RENAMED_NEW
deriving DecidableEq, Repr

/-- The `PathParts` struct (lines 85-90): a directory part and a filename part. -/
structure PathParts where
  directory : List Char
  filename : List Char
deriving DecidableEq, Repr

/-- The unix branch of the `predict` lambda in `split_directory_and_file`
(line 212): a character is a separator iff it is a forward slash. -/
def isSepUnix (c : Char) : Bool := c = '/'

/-- The win32 branch of the `predict` lambda in `split_directory_and_file`
(line 210): backslash or forward slash. -/
def isSepWin (c : Char) : Bool := c = '\\' || c = '/'

/-- The current-directory token `this_directory = "./"` (lines 217-219). -/
def this_directory : List Char := ['.', '/']

/-- Index form of the iterator
`std::find_if(path.rbegin(), path.rend(), predict).base()` (line 222):
scanning from the end of the path, the result is one past the position of
the last separator, and `0` (that is, `path.begin()`) when the path holds
no separator. -/
def split_pivot (isSep : Char → Bool) : List Char → Nat
  | [] => 0
  | c :: rest =>
    let p := split_pivot isSep rest
    if p = 0 then (if isSep c then 1 else 0) else p + 1

/-- `FileWatch::split_directory_and_file` (lines 206-229): the directory is
everything up to and including the pivot, defaulting to `"./"` when empty;
the filename is everything from the pivot on. -/
def split_directory_and_file (isSep : Char → Bool) (path : List Char) : PathParts :=
  let pivot := split_pivot isSep path
  let extracted_directory := path.take pivot
  let directory := if extracted_directory.length > 0 then extracted_directory else this_directory
  let filename := path.drop pivot
  PathParts.mk directory filename

/-- `FileWatch::pass_filter` (lines 231-241): when watching a single file,
a reported path passes iff the filename extracted from it equals the
stored `_filename`; otherwise everything passes. -/
def pass_filter (isSep : Char → Bool) (watching_single_file : Bool)
    (filename : List Char) (file_path : List Char) : Bool :=
  if watching_single_file then
    (split_directory_and_file isSep file_path).filename == filename
  else
    true

/-- A queued event: the pair stored in `_callback_information`
(line 107), `std::pair<std::string, Event>`. -/
abbrev QueuedEvent := List Char × Event

/-! ## Linux (inotify) backend -/

/-- inotify mask bit `IN_MODIFY` (0x00000002, from `sys/inotify.h`). -/
def IN_MODIFY : Nat := 2

/-- inotify mask bit `IN_MOVED_FROM` (0x00000040). -/
def IN_MOVED_FROM : Nat := 64

/-- inotify mask bit `IN_MOVED_TO` (0x00000080). -/
def IN_MOVED_TO : Nat := 128

/-- inotify mask bit `IN_CREATE` (0x00000100). -/
def IN_CREATE : Nat := 256

/-- inotify mask bit `IN_DELETE` (0x00000200). -/
def IN_DELETE : Nat := 512

/-- The unix `_listen_filters = IN_MODIFY | IN_CREATE | IN_DELETE`
(line 142), also the mask handed to `inotify_add_watch` (line 394). -/
def listen_filters_unix : Nat := Nat.lor IN_MODIFY (Nat.lor IN_CREATE IN_DELETE)

/-- One decoded `struct inotify_event`: the action mask, the reported
name length field, and the name bytes read when the length is nonzero. -/
structure InotifyRecord where
  mask : Nat
  len : Nat
  name : List Char
deriving DecidableEq, Repr

/-- The body of the unix record loop in `FileWatch::monitor_directory`
(lines 415-427): records with `len = 0` are skipped; a surviving name is
checked by `pass_filter`; the mask is then matched against `IN_CREATE`,
`IN_DELETE`, `IN_MODIFY`, in that order, and anything else produces no
entry. -/
def parse_inotify_record (watching_single_file : Bool) (filename : List Char)
    (ev : InotifyRecord) : List QueuedEvent :=
  if ev.len ≠ 0 then
    if pass_filter isSepUnix watching_single_file filename ev.name then
      if Nat.land ev.mask IN_CREATE ≠ 0 then [(ev.name, Event.CREATED)]
      else if Nat.land ev.mask IN_DELETE ≠ 0 then [(ev.name, Event.DELETED)]
      else if Nat.land ev.mask IN_MODIFY ≠ 0 then [(ev.name, Event.CHANGED)]
      else []
    else []
  else []

/-- The whole unix record loop (lines 411-430): one notification batch is
decoded record by record, accumulating `parsed_information` in buffer
order. -/
def parse_inotify_batch (watching_single_file : Bool) (filename : List Char) :
    List InotifyRecord → List QueuedEvent
  | [] => []
  | ev :: rest =>
    parse_inotify_record watching_single_file filename ev
      ++ parse_inotify_batch watching_single_file filename rest

/-! ## Windows backend -/

/-- `FILE_ACTION_ADDED` (0x00000001, from `winnt.h`). -/
def FILE_ACTION_ADDED : Nat := 1

/-- `FILE_ACTION_REMOVED` (0x00000002). -/
def FILE_ACTION_REMOVED : Nat := 2

/-- `FILE_ACTION_MODIFIED` (0x00000003). -/
def FILE_ACTION_MODIFIED : Nat := 3

/-- `FILE_ACTION_RENAMED_OLD_NAME` (0x00000004). -/
def FILE_ACTION_RENAMED_OLD_NAME : Nat := 4

/-- `FILE_ACTION_RENAMED_NEW_NAME` (0x00000005). -/
def FILE_ACTION_RENAMED_NEW_NAME : Nat := 5

/-- The `_event_type_mapping` `std::map<DWORD, Event>` (lines 125-131) as a
lookup: `some` on the five mapped action codes, `none` on every other key. -/
def event_type_mapping (action : Nat) : Option Event :=
  if action = FILE_ACTION_ADDED then some Event.CREATED
  else if action = FILE_ACTION_REMOVED then some Event.DELETED
  else if action = FILE_ACTION_MODIFIED then some Event.CHANGED
  else if action = FILE_ACTION_RENAMED_OLD_NAME then some Event.RENAMED_OLD
  else if action = FILE_ACTION_RENAMED_NEW_NAME then some Event.RENAMED_NEW
  else none

/-- One decoded `FILE_NOTIFY_INFORMATION` entry: the `Action` code and the
converted `FileName`. -/
structure WinRecord where
  action : Nat
  file_name : List Char
deriving DecidableEq, Repr

/-- Errors the win32 decode can raise: `_event_type_mapping.at(Action)`
(line 331) throws `std::out_of_range` when the action code is not a key of
the map. -/
inductive MonitorError
  | out_of_range (action : Nat)
deriving DecidableEq, Repr

/-- The body of the win32 record loop in `FileWatch::monitor_directory`
(lines 330-331): a record is first checked by `pass_filter`; a passing
record is enqueued through `_event_type_mapping.at`, which throws on an
unmapped action code; a filtered-out record is skipped without touching
the map. -/
def parse_win_record (watching_single_file : Bool) (filename : List Char)
    (r : WinRecord) : Except MonitorError (List QueuedEvent) :=
  if pass_filter isSepWin watching_single_file filename r.file_name then
    match event_type_mapping r.action with
    | some ev => Except.ok [(r.file_name, ev)]
    | none => Except.error (MonitorError.out_of_range r.action)
  else Except.ok []

/-- The whole win32 record loop (lines 322-336): records are decoded in
buffer order; a thrown `std::out_of_range` aborts the batch (it propagates
out of `monitor_directory`), discarding the entries parsed so far. -/
def parse_win_batch (watching_single_file : Bool) (filename : List Char) :
    List WinRecord → Except MonitorError (List QueuedEvent)
  | [] => Except.ok []
  | r :: rest =>
    match parse_win_record watching_single_file filename r with
    | Except.error e => Except.error e
    | Except.ok xs =>
      match parse_win_batch watching_single_file filename rest with
      | Except.error e => Except.error e
      | Except.ok ys => Except.ok (xs ++ ys)

/-! ## Event queue and dispatch -/

/-- One interaction with the shared `_callback_information` vector: the
monitor thread appends a parsed batch under `_callback_mutex`
(lines 432-435), or the dispatch thread drains the whole vector
(lines 449-464). -/
inductive QueueStep
  | produce (batch : List QueuedEvent)
  | drain
deriving DecidableEq, Repr

/-- Shared queue contents plus the sequence of events already handed to the
callback, in invocation order. -/
structure QueueState where
  queue : List QueuedEvent
  delivered : List QueuedEvent
deriving DecidableEq, Repr

/-- Effect of one `QueueStep`: producing inserts the batch at the end of
`_callback_information` (line 434); draining swaps the whole vector out and
invokes the callback on each drained element in order (lines 450-459). -/
def queue_step (s : QueueState) : QueueStep → QueueState
  | QueueStep.produce b => QueueState.mk (s.queue ++ b) s.delivered
  | QueueStep.drain => QueueState.mk [] (s.delivered ++ s.queue)

/-- Run an interleaving of produce and drain steps from the empty initial
state. -/
def queue_run (steps : List QueueStep) : QueueState :=
  steps.foldl queue_step (QueueState.mk [] [])

/-- All records produced across an interleaving, concatenated in arrival
order: the OS-report order of the surviving records. -/
def produced : List QueueStep → List QueuedEvent
  | [] => []
  | QueueStep.produce b :: rest => b ++ produced rest
  | QueueStep.drain :: rest => produced rest

/-- Outcome of one user-callback invocation: normal return, a throw derived
from `std::exception`, or a throw of any other type. -/
inductive CallbackOutcome
  | ok
  | std_exception
  | other_throw
deriving DecidableEq, Repr

/-- The drain loop of `FileWatch::callback_thread` (lines 453-464) on one
swapped-out batch, returning the events for which the callback was
invoked, in order: with no callback stored every event is skipped; a
normal return or a caught `std::exception` continues with the next event;
a throw not derived from `std::exception` escapes the `catch` clause and
aborts the loop after that invocation. -/
def dispatch_drain (has_callback : Bool) (cb : QueuedEvent → CallbackOutcome) :
    List QueuedEvent → List QueuedEvent
  | [] => []
  | e :: rest =>
    if has_callback then
      match cb e with
      | CallbackOutcome.ok => e :: dispatch_drain has_callback cb rest
      | CallbackOutcome.std_exception => e :: dispatch_drain has_callback cb rest
      | CallbackOutcome.other_throw => [e]
    else
      dispatch_drain has_callback cb rest

/-- A concrete callback behaviour that throws a non-`std::exception` value
on the file `"a"` and returns normally on everything else. -/
def cb_other_throw : QueuedEvent → CallbackOutcome :=
  fun e => if e.1 = ['a'] then CallbackOutcome.other_throw else CallbackOutcome.ok

/-- A concrete callback behaviour that throws a `std::exception`-derived
value on the file `"a"` and returns normally on everything else. -/
def cb_std_exception : QueuedEvent → CallbackOutcome :=
  fun e => if e.1 = ['a'] then CallbackOutcome.std_exception else CallbackOutcome.ok

/-- Observable actions of one iteration of `callback_thread`
(lines 443-465). -/
inductive DispatchAction
  | lock_acquire
  | swap_out
  | lock_release
  | invoke (e : QueuedEvent)
deriving DecidableEq, Repr

/-- State threaded through one iteration of `callback_thread`: the lock
bit of `_callback_mutex`, the shared `_callback_information` vector, the
local `callback_information` vector, and the trace of actions performed. -/
structure DispatchState where
  locked : Bool
  shared : List QueuedEvent
  held : List QueuedEvent
  trace : List DispatchAction
deriving DecidableEq, Repr

/-- The four statements of one iteration of `callback_thread`: acquire the
`unique_lock` (line 445), `std::swap` the local vector with the shared one
(line 450), `lock.unlock()` (line 451), then invoke the callback on each
held event (lines 453-464). -/
inductive DispatchInstr
  | lock
  | swap
  | unlock
  | invoke_all
deriving DecidableEq, Repr

/-- Semantics of the four statements on the dispatch state. -/
def dispatch_step (s : DispatchState) : DispatchInstr → DispatchState
  | DispatchInstr.lock =>
    DispatchState.mk true s.shared s.held (s.trace ++ [DispatchAction.lock_acquire])
  | DispatchInstr.swap =>
    DispatchState.mk s.locked s.held s.shared (s.trace ++ [DispatchAction.swap_out])
  | DispatchInstr.unlock =>
    DispatchState.mk false s.shared s.held (s.trace ++ [DispatchAction.lock_release])
  | DispatchInstr.invoke_all =>
    DispatchState.mk s.locked s.shared s.held (s.trace ++ s.held.map DispatchAction.invoke)

/-- The statement order of one iteration of `callback_thread`
(lines 445-464). -/
def drain_iteration : List DispatchInstr :=
  [DispatchInstr.lock, DispatchInstr.swap, DispatchInstr.unlock, DispatchInstr.invoke_all]

/-- Run one dispatcher iteration against a shared queue holding `q`, with
the local vector freshly value-initialised (line 449). -/
def run_drain (q : List QueuedEvent) : DispatchState :=
  drain_iteration.foldl dispatch_step (DispatchState.mk false q [] [])

/-! ## Session lifecycle -/

/-- Abstract state of one `FileWatch` session: the stored `_path`, an
abstract identity for the stored `_callback`, the `_destroy` flag
(line 99), whether the OS watch resources are open, and whether the
monitoring and dispatch loops are running (each loop body guards on
`_destroy == false`: lines 406 and 443). -/
structure SessionState where
  path : List Char
  callback : Nat
  destroy_flag : Bool
  handle_open : Bool
  monitoring_active : Bool
  dispatch_active : Bool
deriving DecidableEq, Repr

/-- `FileWatch::init` (lines 147-185): spawns the two worker threads; each
thread runs its loop only while `_destroy == false`, and `init` never
resets `_destroy`. -/
def init_session (s : SessionState) : SessionState :=
  SessionState.mk s.path s.callback s.destroy_flag s.handle_open
    (!s.destroy_flag) (!s.destroy_flag)

/-- The `FileWatch(path, callback)` constructor (lines 53-59): members are
initialised with `_destroy{false}`, `get_directory` opens the OS watch
resources, then `init` starts the threads. -/
def construct (path : List Char) (cb : Nat) : SessionState :=
  init_session (SessionState.mk path cb false true false false)

/-- `FileWatch::destroy` (lines 187-204): sets `_destroy = true`, wakes and
joins both threads, and releases the OS watch resources. -/
def destroy (s : SessionState) : SessionState :=
  SessionState.mk s.path s.callback true false false false

/-- `FileWatch::operator=` (lines 68-78): on a non-self assignment, run
`destroy()`, copy `_path` and `_callback`, reopen the OS resources through
`get_directory`, and run `init()`.  Nothing on this path resets
`_destroy`. -/
def copy_assign (s other : SessionState) : SessionState :=
  if s = other then s
  else
    let d := destroy s
    init_session (SessionState.mk other.path other.callback d.destroy_flag true
      d.monitoring_active d.dispatch_active)

/-! ## Theorems -/

/-- A path with no separator has pivot `0`. -/
theorem split_pivot_eq_zero_of_no_sep (isSep : Char → Bool) :
    ∀ path : List Char, (∀ c ∈ path, isSep c = false) → split_pivot isSep path = 0 := by
  intro path h
  induction path with
  | nil => rfl
  | cons c rest ih =>
    have hc : isSep c = false := h c (List.mem_cons_self c rest)
    have hrest : ∀ x ∈ rest, isSep x = false := fun x hx => h x (List.mem_cons_of_mem c hx)
    simp [split_pivot, ih hrest, hc]

/-- When the path decomposes as `pre ++ s :: post` with `s` a separator and
`post` separator-free, the pivot is just past that last separator. -/
theorem split_pivot_last_sep (isSep : Char → Bool) (s : Char) (hs : isSep s = true) :
    ∀ pre post : List Char, (∀ c ∈ post, isSep c = false) →
      split_pivot isSep (pre ++ s :: post) = pre.length + 1 := by
  intro pre
  induction pre with
  | nil =>
    intro post hpost
    simp [split_pivot, split_pivot_eq_zero_of_no_sep isSep post hpost, hs]
  | cons c pre ih =>
    intro post hpost
    have h1 := ih post hpost
    simp only [List.cons_append, split_pivot, List.append_eq] at *
    rw [h1]
    simp

theorem take_append_cons (pre : List Char) (x : Char) (rest : List Char) :
    (pre ++ x :: rest).take (pre.length + 1) = pre ++ [x] := by
  induction pre with
  | nil => simp
  | cons c pre ih => simp [ih]

theorem drop_append_cons (pre : List Char) (x : Char) (rest : List Char) :
    (pre ++ x :: rest).drop (pre.length + 1) = rest := by
  induction pre with
  | nil => simp
  | cons c pre ih => simp [ih]

example : split_directory_and_file isSepUnix ['a', '/', 'b'] = PathParts.mk ['a', '/'] ['b'] := by decide
example : split_directory_and_file isSepUnix ['a', 'b'] = PathParts.mk ['.', '/'] ['a', 'b'] := by decide
example : split_directory_and_file isSepUnix ['a', '/'] = PathParts.mk ['a', '/'] [] := by decide

/-- C5: splitting a path scans from the end for the last separator of the
platform separator set; the filename is everything after that separator and
the directory is everything up to and including it; when the path holds no
separator the directory defaults to the token `"./"` and the filename is
the whole input. -/
theorem c5_split_directory_and_file (isSep : Char → Bool) (path pre post : List Char) (s : Char) :
    ((∀ c ∈ path, isSep c = false) →
      split_directory_and_file isSep path = PathParts.mk this_directory path)
    ∧ (isSep s = true → (∀ c ∈ post, isSep c = false) →
      split_directory_and_file isSep (pre ++ s :: post) = PathParts.mk (pre ++ [s]) post) := by
  constructor
  · intro h
    simp [split_directory_and_file, split_pivot_eq_zero_of_no_sep isSep path h]
  · intro hs hpost
    have hp := split_pivot_last_sep isSep s hs pre post hpost
    simp only [split_directory_and_file, hp, take_append_cons, drop_append_cons]
    have hlen : (pre ++ [s]).length > 0 := by simp
    simp [hlen]

/-- C5 witness: the two cases of `c5_split_directory_and_file` at the
concrete inputs `"ab"` (no separator) and `"d/f"` (last separator at
index 1). -/
theorem c5_split_directory_and_file_witness :
    split_directory_and_file isSepUnix ['a', 'b'] = PathParts.mk this_directory ['a', 'b']
    ∧ split_directory_and_file isSepUnix (['d'] ++ '/' :: ['f']) = PathParts.mk (['d'] ++ ['/']) ['f'] :=
  ⟨(c5_split_directory_and_file isSepUnix ['a', 'b'] ['d'] ['f'] '/').1 (by decide),
   (c5_split_directory_and_file isSepUnix ['a', 'b'] ['d'] ['f'] '/').2 (by decide) (by decide)⟩

/-- Any pair produced by the unix record decode carries the record's name
and only exists when that name passed the filter. -/
theorem mem_parse_inotify_record {w : Bool} {f : List Char} {ev : InotifyRecord}
    {p : QueuedEvent} (hp : p ∈ parse_inotify_record w f ev) :
    p.1 = ev.name ∧ pass_filter isSepUnix w f ev.name = true := by
  unfold parse_inotify_record at hp
  split at hp
  · split at hp
    · rename_i hpass
      split at hp
      · simp at hp
        exact ⟨by simp [hp], hpass⟩
      · split at hp
        · simp at hp
          exact ⟨by simp [hp], hpass⟩
        · split at hp
          · simp at hp
            exact ⟨by simp [hp], hpass⟩
          · simp at hp
    · simp at hp
  · simp at hp

/-- In single-file mode, every pair surviving the unix batch decode has its
basename equal to the watched filename. -/
theorem parse_inotify_batch_filter {f : List Char} {batch : List InotifyRecord}
    {p : QueuedEvent} (hp : p ∈ parse_inotify_batch true f batch) :
    (split_directory_and_file isSepUnix p.1).filename = f := by
  induction batch with
  | nil => simp [parse_inotify_batch] at hp
  | cons ev rest ih =>
    simp only [parse_inotify_batch, List.mem_append] at hp
    cases hp with
    | inl h =>
      obtain ⟨h1, h2⟩ := mem_parse_inotify_record h
      rw [h1]
      simpa [pass_filter] using h2
    | inr h => exact ih h

/-- In single-file mode, every pair a successful win32 record decode emits
has its basename equal to the watched filename. -/
theorem parse_win_record_filter {f : List Char} {r : WinRecord}
    {out : List QueuedEvent} {q : QueuedEvent}
    (h : parse_win_record true f r = Except.ok out) (hq : q ∈ out) :
    (split_directory_and_file isSepWin q.1).filename = f := by
  unfold parse_win_record at h
  split at h
  · rename_i hpass
    split at h
    · rename_i ev hev
      simp at h
      subst h
      simp at hq
      rw [hq]
      simp only []
      simpa [pass_filter] using hpass
    · simp at h
  · simp at h
    subst h
    simp at hq

/-- In single-file mode, every pair a successful win32 batch decode emits
has its basename equal to the watched filename. -/
theorem parse_win_batch_filter {f : List Char} {batch : List WinRecord}
    {out : List QueuedEvent} {q : QueuedEvent}
    (h : parse_win_batch true f batch = Except.ok out) (hq : q ∈ out) :
    (split_directory_and_file isSepWin q.1).filename = f := by
  induction batch generalizing out with
  | nil =>
    simp [parse_win_batch] at h
    subst h
    simp at hq
  | cons r rest ih =>
    unfold parse_win_batch at h
    split at h
    · simp at h
    · rename_i xs hxs
      split at h
      · simp at h
      · rename_i ys hys
        simp at h
        subst h
        rw [List.mem_append] at hq
        cases hq with
        | inl hq1 => exact parse_win_record_filter hxs hq1
        | inr hq2 => exact ih hys hq2

/-- C1 counterexample: with watched filename `"a"`, the decoded record
named `"b\a"` (win32) or `"b/a"` (unix model) differs from the watched
filename, yet it passes `pass_filter` (the filter compares only the part
after the last separator) and is enqueued — so a record whose name differs
from the filename is not always discarded. -/
theorem c1_counterexample :
    parse_win_record true ['a'] (WinRecord.mk FILE_ACTION_ADDED ['b', '\\', 'a'])
      = Except.ok [((['b', '\\', 'a'] : List Char), Event.CREATED)]
    ∧ parse_inotify_batch true ['a'] [InotifyRecord.mk IN_CREATE 4 ['b', '/', 'a']]
      = [((['b', '/', 'a'] : List Char), Event.CREATED)]
    ∧ (['b', '\\', 'a'] : List Char) ≠ ['a'] :=
  ⟨rfl, by decide, by decide⟩

/-- C1 (amended): for a single-file session, every record that survives
decoding — on either backend — has the filename extracted from its
reported name (the part after the last separator) equal to the watched
filename; records whose extracted filename differs are discarded before
being queued, but the full reported name may still differ from the watched
filename when it carries directory components. -/
theorem c1_single_file_filter (fname : List Char) (batch : List InotifyRecord)
    (p : QueuedEvent) (wrs : List WinRecord) (out : List QueuedEvent) (q : QueuedEvent) :
    (p ∈ parse_inotify_batch true fname batch →
      (split_directory_and_file isSepUnix p.1).filename = fname)
    ∧ (parse_win_batch true fname wrs = Except.ok out → q ∈ out →
      (split_directory_and_file isSepWin q.1).filename = fname) :=
  ⟨fun hp => parse_inotify_batch_filter hp,
   fun h hq => parse_win_batch_filter h hq⟩

/-- C1 witness: `c1_single_file_filter` applied to the one-record batches
that report a creation of the watched file `"a"` on each backend. -/
theorem c1_single_file_filter_witness :
    (split_directory_and_file isSepUnix ['a']).filename = ['a']
    ∧ (split_directory_and_file isSepWin ['a']).filename = ['a'] :=
  ⟨(c1_single_file_filter ['a'] [InotifyRecord.mk IN_CREATE 2 ['a']] (['a'], Event.CREATED)
      [WinRecord.mk FILE_ACTION_ADDED ['a']] [(['a'], Event.CREATED)] (['a'], Event.CREATED)).1
      (by decide),
   (c1_single_file_filter ['a'] [InotifyRecord.mk IN_CREATE 2 ['a']] (['a'], Event.CREATED)
      [WinRecord.mk FILE_ACTION_ADDED ['a']] [(['a'], Event.CREATED)] (['a'], Event.CREATED)).2
      rfl (by decide)⟩

/-- C9: for a single-file session, `pass_filter` accepts a reported name
iff the substring after the name's last separator equals the stored
watched filename; in particular any name of the shape
`prefixPart ++ separator ++ watchedFilename` passes the filter even though
the full name differs from the watched filename. -/
theorem c9_pass_filter_basename (fname name pre : List Char) (s : Char) :
    (pass_filter isSepWin true fname name = true ↔
      (split_directory_and_file isSepWin name).filename = fname)
    ∧ (isSepWin s = true → (∀ c ∈ fname, isSepWin c = false) →
      (pass_filter isSepWin true fname (pre ++ s :: fname) = true
        ∧ pre ++ s :: fname ≠ fname)) := by
  constructor
  · simp [pass_filter]
  · intro hs hf
    have hp := split_pivot_last_sep isSepWin s hs pre fname hf
    constructor
    · simp [pass_filter, split_directory_and_file, hp, drop_append_cons]
    · intro hcontr
      have hlen : (pre ++ s :: fname).length = fname.length := congrArg List.length hcontr
      simp [List.length_append] at hlen
      omega

/-- C9 witness: `c9_pass_filter_basename` at the reported name `"b\a"` for
watched filename `"a"`. -/
theorem c9_pass_filter_basename_witness :
    pass_filter isSepWin true ['a'] (['b'] ++ '\\' :: ['a']) = true
    ∧ ['b'] ++ '\\' :: ['a'] ≠ ['a'] :=
  (c9_pass_filter_basename ['a'] ['x'] ['b'] '\\').2 (by decide) (by decide)

/-- C10: on the Linux backend a decoded inotify record whose length field
is zero is skipped — it contributes nothing to the parsed batch, whatever
its mask, and dropping it from a batch leaves the decode unchanged. -/
theorem c10_zero_len_skipped (w : Bool) (f : List Char) (mask : Nat) (name : List Char)
    (r : InotifyRecord) (batch : List InotifyRecord) (h : r.len = 0) :
    parse_inotify_record w f (InotifyRecord.mk mask 0 name) = []
    ∧ parse_inotify_batch w f (r :: batch) = parse_inotify_batch w f batch := by
  constructor
  · rfl
  · have hrec : parse_inotify_record w f r = [] := by
      unfold parse_inotify_record
      simp [h]
    simp [parse_inotify_batch, hrec]

/-- C10 witness: `c10_zero_len_skipped` on a record with mask
`IN_DELETE_SELF` (0x400) and zero length, in front of a one-record
creation batch. -/
theorem c10_zero_len_skipped_witness :
    parse_inotify_record false [] (InotifyRecord.mk 1024 0 ['a']) = []
    ∧ parse_inotify_batch false [] (InotifyRecord.mk 1024 0 ['a'] :: [InotifyRecord.mk IN_CREATE 2 ['b']])
      = parse_inotify_batch false [] [InotifyRecord.mk IN_CREATE 2 ['b']] :=
  c10_zero_len_skipped false [] 1024 ['a'] (InotifyRecord.mk 1024 0 ['a'])
    [InotifyRecord.mk IN_CREATE 2 ['b']] rfl

/-- C2 counterexample: on the Linux backend a rename inside the watched
directory arrives as an `IN_MOVED_FROM` record followed by an
`IN_MOVED_TO` record, and the decode produces no queued event at all —
not the claimed `RENAMED_OLD` / `RENAMED_NEW` pair. -/
theorem c2_counterexample :
    parse_inotify_batch false []
      [InotifyRecord.mk IN_MOVED_FROM 6 ['a'], InotifyRecord.mk IN_MOVED_TO 6 ['b']] = []
    ∧ ([] : List QueuedEvent) ≠ [(['a'], Event.RENAMED_OLD), (['b'], Event.RENAMED_NEW)] := by
  constructor
  · decide
  · decide

/-- C2 (amended): on the unix backend renames are never reported — the
registration mask `_listen_filters` holds no rename bits and the decoder
maps only `IN_CREATE`, `IN_DELETE` and `IN_MODIFY`, so a rename record
produces no callback invocation; each created/deleted/modified record with
a nonzero length yields exactly one queued event with the matching
variant; the two-record rename pair of the claim is produced by the
Windows backend, in the order `RENAMED_OLD` then `RENAMED_NEW`. -/
theorem c2_per_record_events (f name name2 : List Char) (len : Nat) :
    Nat.land listen_filters_unix IN_MOVED_FROM = 0
    ∧ Nat.land listen_filters_unix IN_MOVED_TO = 0
    ∧ parse_inotify_record false f (InotifyRecord.mk IN_MOVED_FROM len name) = []
    ∧ parse_inotify_record false f (InotifyRecord.mk IN_MOVED_TO len name) = []
    ∧ (len ≠ 0 → parse_inotify_record false f (InotifyRecord.mk IN_CREATE len name)
        = [(name, Event.CREATED)])
    ∧ (len ≠ 0 → parse_inotify_record false f (InotifyRecord.mk IN_DELETE len name)
        = [(name, Event.DELETED)])
    ∧ (len ≠ 0 → parse_inotify_record false f (InotifyRecord.mk IN_MODIFY len name)
        = [(name, Event.CHANGED)])
    ∧ parse_win_batch false f
        [WinRecord.mk FILE_ACTION_RENAMED_OLD_NAME name, WinRecord.mk FILE_ACTION_RENAMED_NEW_NAME name2]
      = Except.ok [(name, Event.RENAMED_OLD), (name2, Event.RENAMED_NEW)] := by
  have hfc : Nat.land IN_MOVED_FROM IN_CREATE = 0 := by decide
  have hfd : Nat.land IN_MOVED_FROM IN_DELETE = 0 := by decide
  have hfm : Nat.land IN_MOVED_FROM IN_MODIFY = 0 := by decide
  have htc : Nat.land IN_MOVED_TO IN_CREATE = 0 := by decide
  have htd : Nat.land IN_MOVED_TO IN_DELETE = 0 := by decide
  have htm : Nat.land IN_MOVED_TO IN_MODIFY = 0 := by decide
  have hcc : Nat.land IN_CREATE IN_CREATE ≠ 0 := by decide
  have hdc : Nat.land IN_DELETE IN_CREATE = 0 := by decide
  have hdd : Nat.land IN_DELETE IN_DELETE ≠ 0 := by decide
  have hmc : Nat.land IN_MODIFY IN_CREATE = 0 := by decide
  have hmd : Nat.land IN_MODIFY IN_DELETE = 0 := by decide
  have hmm : Nat.land IN_MODIFY IN_MODIFY ≠ 0 := by decide
  refine ⟨by decide, by decide, ?_, ?_, ?_, ?_, ?_, ?_⟩
  · simp [parse_inotify_record, pass_filter, hfc, hfd, hfm]
  · simp [parse_inotify_record, pass_filter, htc, htd, htm]
  · intro hlen
    simp [parse_inotify_record, pass_filter, hlen, hcc]
  · intro hlen
    simp [parse_inotify_record, pass_filter, hlen, hdc, hdd]
  · intro hlen
    simp [parse_inotify_record, pass_filter, hlen, hmc, hmd, hmm]
  · simp [parse_win_batch, parse_win_record, pass_filter, event_type_mapping,
      FILE_ACTION_ADDED, FILE_ACTION_REMOVED, FILE_ACTION_MODIFIED,
      FILE_ACTION_RENAMED_OLD_NAME, FILE_ACTION_RENAMED_NEW_NAME]

/-- C2 witness: `c2_per_record_events` at names `"a"`, `"b"` and record
length 6. -/
theorem c2_per_record_events_witness :
    parse_inotify_record false [] (InotifyRecord.mk IN_CREATE 6 ['a'])
      = [((['a'] : List Char), Event.CREATED)]
    ∧ parse_inotify_record false [] (InotifyRecord.mk IN_DELETE 6 ['a'])
      = [((['a'] : List Char), Event.DELETED)]
    ∧ parse_inotify_record false [] (InotifyRecord.mk IN_MODIFY 6 ['a'])
      = [((['a'] : List Char), Event.CHANGED)] :=
  ⟨(c2_per_record_events [] ['a'] ['b'] 6).2.2.2.2.1 (by decide),
   (c2_per_record_events [] ['a'] ['b'] 6).2.2.2.2.2.1 (by decide),
   (c2_per_record_events [] ['a'] ['b'] 6).2.2.2.2.2.2.1 (by decide)⟩

/-- C4 counterexample: on the Windows backend a record with the unmapped
action code 6 is not dropped silently — `_event_type_mapping.at` throws,
and the throw aborts the whole batch, discarding the record already
decoded before it. -/
theorem c4_counterexample :
    parse_win_record false [] (WinRecord.mk 6 ['x'])
      = Except.error (MonitorError.out_of_range 6)
    ∧ parse_win_batch false [] [WinRecord.mk FILE_ACTION_ADDED ['x'], WinRecord.mk 6 ['y']]
      = Except.error (MonitorError.out_of_range 6) :=
  ⟨rfl, rfl⟩

/-- C4 (amended): the fixed five-entry table maps created→CREATED,
removed→DELETED, modified→CHANGED, rename-from→RENAMED_OLD,
rename-to→RENAMED_NEW and nothing else; on the unix backend a record whose
mask holds none of the three decoded bits is dropped silently; on the
Windows backend a record that passes the filter and whose action code is
outside the table makes the decode raise (`std::map::at` throws
`std::out_of_range`) instead of dropping the record. -/
theorem c4_action_code_mapping (w : Bool) (f : List Char) (r : InotifyRecord)
    (wr : WinRecord) (a : Nat) :
    (event_type_mapping FILE_ACTION_ADDED = some Event.CREATED
      ∧ event_type_mapping FILE_ACTION_REMOVED = some Event.DELETED
      ∧ event_type_mapping FILE_ACTION_MODIFIED = some Event.CHANGED
      ∧ event_type_mapping FILE_ACTION_RENAMED_OLD_NAME = some Event.RENAMED_OLD
      ∧ event_type_mapping FILE_ACTION_RENAMED_NEW_NAME = some Event.RENAMED_NEW)
    ∧ (a ≠ FILE_ACTION_ADDED → a ≠ FILE_ACTION_REMOVED → a ≠ FILE_ACTION_MODIFIED →
        a ≠ FILE_ACTION_RENAMED_OLD_NAME → a ≠ FILE_ACTION_RENAMED_NEW_NAME →
        event_type_mapping a = none)
    ∧ (Nat.land r.mask IN_CREATE = 0 → Nat.land r.mask IN_DELETE = 0 →
        Nat.land r.mask IN_MODIFY = 0 → parse_inotify_record w f r = [])
    ∧ (event_type_mapping wr.action = none →
        pass_filter isSepWin w f wr.file_name = true →
        parse_win_record w f wr = Except.error (MonitorError.out_of_range wr.action)) := by
  refine ⟨⟨rfl, rfl, rfl, rfl, rfl⟩, ?_, ?_, ?_⟩
  · intro h1 h2 h3 h4 h5
    simp [event_type_mapping, h1, h2, h3, h4, h5]
  · intro hc hd hm
    simp [parse_inotify_record, pass_filter, hc, hd, hm]
  · intro hmap hpass
    simp [parse_win_record, hpass, hmap]

/-- C4 witness: `c4_action_code_mapping` at the unmapped win32 action
code 6, an unmapped unix mask `IN_MOVED_FROM`, and an unfiltered session. -/
theorem c4_action_code_mapping_witness :
    event_type_mapping 6 = none
    ∧ parse_inotify_record false [] (InotifyRecord.mk IN_MOVED_FROM 6 ['a']) = []
    ∧ parse_win_record false [] (WinRecord.mk 6 ['x'])
      = Except.error (MonitorError.out_of_range 6) :=
  ⟨(c4_action_code_mapping false [] (InotifyRecord.mk IN_MOVED_FROM 6 ['a'])
      (WinRecord.mk 6 ['x']) 6).2.1 (by decide) (by decide) (by decide) (by decide) (by decide),
   (c4_action_code_mapping false [] (InotifyRecord.mk IN_MOVED_FROM 6 ['a'])
      (WinRecord.mk 6 ['x']) 6).2.2.1 (by decide) (by decide) (by decide),
   (c4_action_code_mapping false [] (InotifyRecord.mk IN_MOVED_FROM 6 ['a'])
      (WinRecord.mk 6 ['x']) 6).2.2.2 (by decide) (by decide)⟩

/-- The queue invariant: running any interleaving of produces and drains
from any start state, the delivered sequence followed by the residual
queue equals the start contents followed by everything produced, in
arrival order. -/
theorem queue_run_invariant (steps : List QueueStep) :
    ∀ s : QueueState,
      (steps.foldl queue_step s).delivered ++ (steps.foldl queue_step s).queue
        = s.delivered ++ (s.queue ++ produced steps) := by
  induction steps with
  | nil =>
    intro s
    simp [produced]
  | cons st rest ih =>
    intro s
    cases st with
    | produce b =>
      simp only [List.foldl_cons, queue_step, produced]
      rw [ih]
      simp
    | drain =>
      simp only [List.foldl_cons, queue_step, produced]
      rw [ih]
      simp

/-- C6: callback invocation order equals OS-report order — for any
interleaving of producer batches and dispatcher drains, the delivered
sequence followed by the residual queue is exactly the concatenation of
the produced batches in arrival order (so the delivered sequence is always
a prefix of the OS-report order), and one further drain delivers exactly
that concatenation. -/
theorem c6_delivery_order (steps : List QueueStep) :
    (queue_run steps).delivered ++ (queue_run steps).queue = produced steps
    ∧ (queue_run (steps ++ [QueueStep.drain])).delivered = produced steps := by
  have h1 := queue_run_invariant steps (QueueState.mk [] [])
  constructor
  · simpa [queue_run] using h1
  · rw [queue_run, List.foldl_append]
    simp only [List.foldl_cons, List.foldl_nil, queue_step]
    simpa [queue_run] using h1

/-- C7 counterexample: a callback that raises a value not derived from
`std::exception` on the first drained event escapes the dispatch loop's
`catch` clause, so the second queued event of the drain is never
delivered. -/
theorem c7_counterexample :
    dispatch_drain true cb_other_throw [(['a'], Event.CREATED), (['b'], Event.CREATED)]
      = [((['a'] : List Char), Event.CREATED)]
    ∧ ((['b'] : List Char), Event.CREATED) ∉ dispatch_drain true cb_other_throw
        [(['a'], Event.CREATED), (['b'], Event.CREATED)] := by
  constructor
  · rfl
  · decide

/-- C7 (amended): an error derived from `std::exception` raised by the
callback is caught and discarded and dispatch continues with the next
queued event — as long as the callback never raises anything outside the
`std::exception` hierarchy, every event of the drain is dispatched in
order; a throw outside that hierarchy is not caught by the loop. -/
theorem c7_std_exception_continues (cb : QueuedEvent → CallbackOutcome)
    (events : List QueuedEvent) (h : ∀ e ∈ events, cb e ≠ CallbackOutcome.other_throw) :
    dispatch_drain true cb events = events := by
  induction events with
  | nil => rfl
  | cons e rest ih =>
    have he : cb e ≠ CallbackOutcome.other_throw := h e (List.mem_cons_self e rest)
    have hrest : ∀ x ∈ rest, cb x ≠ CallbackOutcome.other_throw :=
      fun x hx => h x (List.mem_cons_of_mem e hx)
    cases hcb : cb e with
    | ok => simp [dispatch_drain, hcb, ih hrest]
    | std_exception => simp [dispatch_drain, hcb, ih hrest]
    | other_throw => exact absurd hcb he

/-- C7 witness: `c7_std_exception_continues` with a callback that raises a
`std::exception` on the first event: both events are still dispatched. -/
theorem c7_std_exception_continues_witness :
    dispatch_drain true cb_std_exception [(['a'], Event.CREATED), (['b'], Event.CHANGED)]
      = [(['a'], Event.CREATED), (['b'], Event.CHANGED)] :=
  c7_std_exception_continues cb_std_exception
    [(['a'], Event.CREATED), (['b'], Event.CHANGED)] (by decide)

/-- C8: one dispatcher iteration removes the entire queued sequence in one
bulk swap — afterwards the shared queue is empty and the dispatcher holds
exactly the events that were queued, in order — and its action trace
releases the lock before any callback invocation. -/
theorem c8_bulk_swap_drain (q : List QueuedEvent) :
    (run_drain q).shared = [] ∧ (run_drain q).held = q ∧ (run_drain q).locked = false
    ∧ (run_drain q).trace
      = [DispatchAction.lock_acquire, DispatchAction.swap_out, DispatchAction.lock_release]
        ++ q.map DispatchAction.invoke := by
  refine ⟨rfl, rfl, rfl, ?_⟩
  simp [run_drain, drain_iteration, dispatch_step]

/-- C3: copy-assignment does run `destroy` and then the construction
sequence for the copied path and callback, but the result is not
behaviorally equivalent to a fresh session — `init` never clears the
`_destroy` flag set by `destroy`, so both worker loops of the assigned-to
session exit immediately and it never monitors or dispatches, unlike a
freshly constructed session. -/
theorem c3_copy_assign_dead :
    copy_assign (construct ['a'] 0) (construct ['b'] 1) ≠ construct ['b'] 1
    ∧ (copy_assign (construct ['a'] 0) (construct ['b'] 1)).destroy_flag = true
    ∧ (copy_assign (construct ['a'] 0) (construct ['b'] 1)).monitoring_active = false
    ∧ (copy_assign (construct ['a'] 0) (construct ['b'] 1)).dispatch_active = false
    ∧ (copy_assign (construct ['a'] 0) (construct ['b'] 1)).path = ['b']
    ∧ (copy_assign (construct ['a'] 0) (construct ['b'] 1)).callback = 1
    ∧ (construct ['b'] 1).monitoring_active = true
    ∧ (construct ['b'] 1).dispatch_active = true
    ∧ (construct ['b'] 1).destroy_flag = false := by decide

end Filewatch
